import Mathlib

set_option autoImplicit false

namespace CollectiveProfiler

/-! Shallow embedding of the collective_profiler analysis code: the notation
codec (C `compress_int_array` from `src/unnamed/part_000` plus the codec
behavior the spec documents), the pattern classifier and statistics
accumulator of the Go `profiler` package, the validation path, the
grouping engine, and the `scale` package rescaling. Go `map[int]int`
values are embedded as association lists `List (Int × Int)` with at most
one entry per key; Go slices as `List`; fallible code as `Except`/`Option`. -/

/-! ## NotationCodec (spec-modelled side) -/

/-- Renders one codec token: a singleton id as its decimal value, a run as
`start-end`. Helper for the spec-modelled `compress`. -/
def renderTok (start cur : Int) : String :=
  if start = cur then toString start else toString start ++ "-" ++ toString cur

/-- Walks the remaining ids holding the current run `[start..cur]`; a
successor extends the run, anything else closes the token. Helper for the
spec-modelled `compress`. -/
def specTokens : List Int → Int → Int → List String
  | [], start, cur => [renderTok start cur]
  | y :: rest, start, cur =>
    if y = cur + 1 then specTokens rest start y
    else renderTok start cur :: specTokens rest y y

/-- Joins tokens with the separator `", "`. -/
def joinSep : List String → String
  | [] => ""
  | [x] => x
  | x :: y :: rest => x ++ ", " ++ joinSep (y :: rest)

/-- Modelled from the spec: `compress` (§4.1); the Go codec implementation is
not under `src/`, and the C `compress_int_array` captured in
`src/unnamed/part_000` is embedded separately below. Consecutive runs of
length at least 2 become `start-end`, isolated ids their decimal value,
tokens joined with `", "`, empty input gives the empty string. -/
def compress : List Int → String
  | [] => ""
  | x :: rest => joinSep (specTokens rest x x)

/-- Splits a character list on the two-character separator `", "`. -/
def splitSep : List Char → List (List Char)
  | [] => [[]]
  | ',' :: ' ' :: rest => [] :: splitSep rest
  | c :: rest =>
    match splitSep rest with
    | [] => [[c]]
    | t :: ts => (c :: t) :: ts

/-- Splits a character list on `-`. -/
def splitDash : List Char → List (List Char)
  | [] => [[]]
  | '-' :: rest => [] :: splitDash rest
  | c :: rest =>
    match splitDash rest with
    | [] => [[c]]
    | t :: ts => (c :: t) :: ts

/-- Parses a nonempty all-digit character list as a natural number. -/
def parseNatChars (l : List Char) : Option Nat :=
  if l.isEmpty then none
  else
    l.foldl
      (fun acc c =>
        match acc with
        | none => none
        | some n => if c.isDigit then some (n * 10 + (c.toNat - 48)) else none)
      (some 0)

/-- Modelled from the spec: one `decompress` token (§4.1) is either a bare
integer or an inclusive range `a-b` requiring `a ≤ b`. -/
def parseToken (t : List Char) : Option (List Int) :=
  match splitDash t with
  | [a] => (parseNatChars a).map (fun n => [(n : Int)])
  | [a, b] =>
    match parseNatChars a, parseNatChars b with
    | some x, some y =>
      if x ≤ y then some ((List.range' x (y - x + 1)).map (fun m => (m : Int))) else none
    | _, _ => none
  | _ => none

/-- Decides whether an integer list is strictly ascending. -/
def strictAscending : List Int → Bool
  | x :: y :: rest => decide (x < y) && strictAscending (y :: rest)
  | _ => true

/-- Modelled from the spec: `decompress` (§4.1); the Go implementation is not
under `src/`. Splits on `", "`, expands tokens, fails on non-numeric
tokens, reversed ranges, or a result that is not strictly ascending. -/
def decompress (s : String) : Option (List Int) :=
  if s = "" then some []
  else
    match (splitSep s.data).mapM parseToken with
    | none => none
    | some ls =>
      let l := ls.flatten
      if strictAscending l then some l else none

/-! ## The captured C `compress_int_array` (src/unnamed/part_000 lines 762-817) -/

/-- Result of a C loop embedding: `oob` marks a read past the end of the
array (undefined behavior in the source), `fuelOut` an exhausted iteration
bound (never reached with the bounds used below), `done` a normal exit. -/
inductive LoopRes (α : Type) where
  | oob : LoopRes α
  | fuelOut : LoopRes α
  | done : α → LoopRes α
  deriving DecidableEq, Repr

/-- Embeds `add_range` (`src/unnamed/part_000` lines 762-776). A NULL string
is `none`; in the non-NULL case the C code sprintf-writes at `&str[len-1]`,
overwriting the last character of the existing string before appending. -/
def add_range (str : Option String) (start e : Int) : String :=
  match str with
  | none => toString start ++ "-" ++ toString e
  | some s => s.dropRight 1 ++ ", " ++ toString start ++ "-" ++ toString e

/-- Embeds `add_singleton` (`src/unnamed/part_000` lines 778-792), with the
same last-character overwrite in the non-NULL case. -/
def add_singleton (str : Option String) (n : Int) : String :=
  match str with
  | none => toString n
  | some s => s.dropRight 1 ++ ", " ++ toString n

/-- Embeds the `while (array[i] = array[i + 1]) i++;` loop of
`compress_int_array` (`src/unnamed/part_000` line 801): the condition
ASSIGNS `array[i+1]` to `array[i]` (the source uses `=`, not `==`) and the
loop continues while the assigned value is nonzero; reading `array[i+1]`
past the end of the array is undefined behavior, returned as `.oob`. The
fuel bound is sufficient whenever it exceeds `arr.length`. -/
def compressWhile : Nat → List Int → Nat → LoopRes (List Int × Nat)
  | 0, _, _ => .fuelOut
  | fuel + 1, arr, i =>
    match arr.get? (i + 1) with
    | none => .oob
    | some v =>
      if v ≠ 0 then compressWhile fuel (arr.set i v) (i + 1)
      else .done (arr.set i v, i)

/-- Embeds the `for (i = 0; i < size; i++)` loop of `compress_int_array`
(`src/unnamed/part_000` lines 798-815): scans a run with `compressWhile`,
then appends a range token for `start..i` or a singleton token for `i` —
using the loop INDICES, as the source does, not the element values. -/
def compressLoop : Nat → List Int → Nat → Option String → LoopRes (Option String)
  | 0, _, _, _ => .fuelOut
  | fuel + 1, arr, i, rep =>
    if i < arr.length then
      match compressWhile (arr.length + 1) arr i with
      | .oob => .oob
      | .fuelOut => .fuelOut
      | .done (arr2, i2) =>
        let rep2 :=
          if i2 ≠ i then some (add_range rep (i : Int) (i2 : Int))
          else some (add_singleton rep (i2 : Int))
        compressLoop fuel arr2 (i2 + 1) rep2
    else .done rep

/-- Embeds `compress_int_array` (`src/unnamed/part_000` lines 794-817). The
local `compressedRep` is never initialized in the C source; its unknown
initial content is the argument `rep0`. -/
def compress_int_array (rep0 : Option String) (arr : List Int) : LoopRes (Option String) :=
  compressLoop (arr.length + 1) arr 0 rep0

/-! ## VolumeClusterer (grouping engine) -/

/-- Modelled from the spec: `VolumeGroup` (§3); the grouping engine
(`grouping.c`) is not under `src/`, only its test
`src/alltoallv/grouping_test.c` is. One cluster: inclusive value interval,
member count, ordered member ids. -/
structure VolumeGroup where
  min : Int
  max : Int
  size : Int
  elts : List Int
  deriving DecidableEq, Repr

/-- Modelled from the spec: the clusterer state (§4.5), an ordered list of
open groups. -/
structure GroupingEngine where
  groups : List VolumeGroup
  deriving DecidableEq, Repr

/-- Modelled from the spec: the fixed deterministic policy (§4.5): a point is
compatible with a group when its value lies in the group interval widened
by 1 on each side (adjacent or overlapping). -/
def groupCompatible (g : VolumeGroup) (v : Int) : Bool :=
  decide (g.min - 1 ≤ v) && decide (v ≤ g.max + 1)

/-- Modelled from the spec: assignment of one point (§4.5): the first
compatible group in order absorbs the point, widening its interval;
otherwise a new group is opened at the end. -/
def addToGroups (id v : Int) : List VolumeGroup → List VolumeGroup
  | [] => [⟨v, v, 1, [id]⟩]
  | g :: rest =>
    if groupCompatible g v then
      ⟨Min.min g.min v, Max.max g.max v, g.size + 1, g.elts ++ [id]⟩ :: rest
    else g :: addToGroups id v rest

/-- Modelled from the spec: `add(id, value)` ingests one (entity id, scalar)
pair (§4.5). -/
def add_datapoint (e : GroupingEngine) (id v : Int) : GroupingEngine :=
  ⟨addToGroups id v e.groups⟩

/-- Modelled from the spec: `finalize()` returns the ordered group list and
resets the internal state (§4.5). -/
def get_groups (e : GroupingEngine) : List VolumeGroup × GroupingEngine :=
  (e.groups, ⟨[]⟩)

/-! ## PatternClassifier (Go `profiler` package, second file embedded in
src/tools/internal/pkg/format/format.go) -/

/-- Looks up a key in an embedded Go `map[int]int`. -/
def lookupKey (m : List (Int × Int)) (k : Int) : Option Int :=
  (m.find? (fun kv => kv.1 == k)).map Prod.snd

/-- Modelled from the spec: `datafilereader.CompareCallPatterns` (not under
`src/`), the classifier signature-equality rule (§3): identical key sets
with identical values on both maps simultaneously; a key bound to 0 is not
the same as an absent key. -/
def compareCallPatterns (a b : List (Int × Int)) : Bool :=
  a.all (fun kv => lookupKey b kv.1 == some kv.2) &&
  b.all (fun kv => lookupKey a kv.1 == some kv.2)

/-- Embeds `CallPattern` (format.go lines 86-91): send/recv degree
signatures, occurrence count, ordered member call list. -/
structure CallPattern where
  send : List (Int × Int)
  recv : List (Int × Int)
  count : Int
  calls : List Int
  deriving DecidableEq, Repr

/-- Embeds `GlobalPatterns` (format.go lines 93-96). The Go lists hold
`*CallPattern` pointers and `OneToN` aliases entries of `AllPatterns`;
here `oneToN` holds indices into `allPatterns`, preserving sharing and
multiplicity. -/
structure GlobalPatterns where
  allPatterns : List CallPattern
  oneToN : List Nat
  deriving DecidableEq, Repr

/-- Embeds the linear scan of `addPattern` (format.go lines 460-481): the
first stored pattern whose two signatures compare equal to the submitted
pair has its count incremented and the call index appended to its member
list; `none` when no stored pattern matches. -/
def scanPatterns (callNum : Int) (s r : List (Int × Int)) :
    List CallPattern → Option (List CallPattern)
  | [] => none
  | x :: rest =>
    if compareCallPatterns x.send s && compareCallPatterns x.recv r then
      some ({ x with count := x.count + 1, calls := x.calls ++ [callNum] } :: rest)
    else
      match scanPatterns callNum s r rest with
      | some rest2 => some (x :: rest2)
      | none => none

/-- Embeds `addPattern` (format.go lines 459-500): on a match only the
matched entry changes (the fan-out handling in that branch is commented out
in the source); otherwise a new pattern with count 1 and member list
`[callNum]` is appended, and for every `(sendTo, n)` pair of the send
signature with `sendTo > n*100` the new pattern is appended to the fan-out
list `oneToN`, once per qualifying pair. -/
def addPattern (gp : GlobalPatterns) (callNum : Int)
    (sendPatterns recvPatterns : List (Int × Int)) : GlobalPatterns :=
  match scanPatterns callNum sendPatterns recvPatterns gp.allPatterns with
  | some updated => { gp with allPatterns := updated }
  | none =>
    let new_cp : CallPattern := ⟨sendPatterns, recvPatterns, 1, [callNum]⟩
    let newIdx := gp.allPatterns.length
    { allPatterns := gp.allPatterns ++ [new_cp]
      oneToN := sendPatterns.foldl
        (fun acc kv => if kv.2 * 100 < kv.1 then acc ++ [newIdx] else acc) gp.oneToN }

/-! ## StatsAggregator (Go `profiler` package, same embedded file) -/

/-- Increments an existing entry of an embedded Go map (`m[k]++`); only used
where the source guards the increment with a presence test. -/
def mapIncr (m : List (Int × Int)) (k : Int) : List (Int × Int) :=
  m.map (fun kv => if kv.1 == k then (kv.1, kv.2 + 1) else kv)

/-- Performs `m[k] = v` on an embedded Go map: overwrite when present, insert
at the end otherwise. -/
def mapSet (m : List (Int × Int)) (k v : Int) : List (Int × Int) :=
  if (lookupKey m k).isSome then
    m.map (fun kv => if kv.1 == k then (kv.1, v) else kv)
  else m ++ [(k, v)]

/-- Embeds the Go idiom `if _, ok := m[k]; ok { m[k]++ } else { m[k] = 1 }`
used for every histogram update of `ParseCountFiles`. -/
def histIncr (m : List (Int × Int)) (k : Int) : List (Int × Int) :=
  if (lookupKey m k).isSome then mapIncr m k else mapSet m k 1

/-- Embeds `CountStats` (format.go lines 98-115). -/
structure CountStats where
  numSendSmallMsgs : Int
  numSendLargeMsgs : Int
  sizeThreshold : Int
  numSendSmallNotZeroMsgs : Int
  commSizes : List (Int × Int)
  datatypesSend : List (Int × Int)
  datatypesRecv : List (Int × Int)
  callSendSparsity : List (Int × Int)
  callRecvSparsity : List (Int × Int)
  sendMins : List (Int × Int)
  recvMins : List (Int × Int)
  sendMaxs : List (Int × Int)
  recvMaxs : List (Int × Int)
  sendNotZeroMins : List (Int × Int)
  recvNotZeroMins : List (Int × Int)
  patterns : GlobalPatterns
  deriving DecidableEq, Repr

/-- Embeds `newCountStats` (format.go lines 439-457): empty histograms, zero
totals. -/
def newCountStats : CountStats :=
  ⟨0, 0, 0, 0, [], [], [], [], [], [], [], [], [], [], [], ⟨[], []⟩⟩

/-- Modelled from the spec: the per-call metrics record returned by
`datafilereader.LookupCall` (not under `src/`); its fields are exactly the
ones the `ParseCountFiles` loop body reads (§4.4). -/
structure CallInfo where
  sendSmallMsgs : Int
  sendSmallNotZeroMsgs : Int
  sendLargeMsgs : Int
  sendDatatypeSize : Int
  recvDatatypeSize : Int
  commSize : Int
  sendMin : Int
  recvMin : Int
  sendMax : Int
  recvMax : Int
  sendNotZeroMin : Int
  recvNotZeroMin : Int
  totalSendZeroCounts : Int
  totalRecvZeroCounts : Int
  sendPatterns : List (Int × Int)
  recvPatterns : List (Int × Int)
  deriving Repr

/-- Embeds the loop body of `ParseCountFiles` (format.go lines 505-587):
per-record statistics accumulation, updates applied in source order. Lines
558-568 are reproduced exactly as written: the presence test is on
`SendNotZeroMins` (resp. `RecvNotZeroMins`) but the update is applied to
`SendMins` (resp. `RecvMins`). -/
def updateCountStats (cs : CountStats) (ci : CallInfo) (i : Int) : CountStats :=
  let cs := { cs with
    numSendSmallMsgs := cs.numSendSmallMsgs + ci.sendSmallMsgs
    numSendSmallNotZeroMsgs := cs.numSendSmallNotZeroMsgs + ci.sendSmallNotZeroMsgs
    numSendLargeMsgs := cs.numSendLargeMsgs + ci.sendLargeMsgs }
  let cs := { cs with datatypesSend := histIncr cs.datatypesSend ci.sendDatatypeSize }
  let cs := { cs with datatypesRecv := histIncr cs.datatypesRecv ci.recvDatatypeSize }
  let cs := { cs with commSizes := histIncr cs.commSizes ci.commSize }
  let cs := { cs with sendMins := histIncr cs.sendMins ci.sendMin }
  let cs := { cs with recvMins := histIncr cs.recvMins ci.recvMin }
  let cs := { cs with sendMaxs := histIncr cs.sendMaxs ci.sendMax }
  let cs := { cs with recvMaxs := histIncr cs.recvMaxs ci.recvMax }
  let newSendMins :=
    if (lookupKey cs.sendNotZeroMins ci.sendNotZeroMin).isSome then
      mapIncr cs.sendMins ci.sendNotZeroMin
    else
      mapSet cs.sendMins ci.sendNotZeroMin 1
  let cs := { cs with sendMins := newSendMins }
  let newRecvMins :=
    if (lookupKey cs.recvNotZeroMins ci.recvNotZeroMin).isSome then
      mapIncr cs.recvMins ci.recvNotZeroMin
    else
      mapSet cs.recvMins ci.recvNotZeroMin 1
  let cs := { cs with recvMins := newRecvMins }
  let cs := { cs with callSendSparsity := histIncr cs.callSendSparsity ci.totalSendZeroCounts }
  let cs := { cs with callRecvSparsity := histIncr cs.callRecvSparsity ci.totalRecvZeroCounts }
  { cs with patterns := addPattern cs.patterns i ci.sendPatterns ci.recvPatterns }

/-- Embeds the `ParseCountFiles` driver loop (format.go lines 502-591) over
the per-call records delivered by the reader, call index starting at `i`. -/
def parseCountsLoop (i : Int) : CountStats → List CallInfo → CountStats
  | cs, [] => cs
  | cs, ci :: rest => parseCountsLoop (i + 1) (updateCountStats cs ci i) rest

/-- Embeds `ParseCountFiles` (format.go lines 502-591), abstracting the file
reading into the list of per-call records. -/
def ParseCountFiles (infos : List CallInfo) : CountStats :=
  parseCountsLoop 0 newCountStats infos

/-- Embeds `writeCountStatsToFile` (format.go lines 666-746) as the list of
strings written to the file descriptor. Go `for k, v := range m` iterates a
map in unspecified order; the embedding iterates the association list in
its list order, which stands for the iteration order actually observed. -/
def writeCountStatsLines (numCalls sizeThreshold : Int) (cs : CountStats) : List String :=
  let totalSendMsgs := cs.numSendSmallMsgs + cs.numSendLargeMsgs
  let nLarge := cs.numSendLargeMsgs
  let nSmall := cs.numSendSmallMsgs
  let nSmallNz := cs.numSendSmallNotZeroMsgs
  ["# Message sizes\n\n",
    s!"{nLarge}/{totalSendMsgs} of all messages are large (threshold = {sizeThreshold})\n",
    s!"{nSmall}/{totalSendMsgs} of all messages are small (threshold = {sizeThreshold})\n",
    s!"{nSmallNz}/{totalSendMsgs} of all messages are small, but not 0-size (threshold = {sizeThreshold})\n",
    "\n# Sparsity\n\n"]
  ++ cs.callSendSparsity.map (fun kv =>
      let numZeros := kv.1
      let nCalls := kv.2
      s!"{nCalls}/{numCalls} of all calls have {numZeros} send counts equals to zero\n")
  ++ cs.callRecvSparsity.map (fun kv =>
      let numZeros := kv.1
      let nCalls := kv.2
      s!"{nCalls}/{numCalls} of all calls have {numZeros} recv counts equals to zero\n")
  ++ ["\n# Min/max\n"]
  ++ cs.sendMins.map (fun kv =>
      let mins := kv.1
      let n := kv.2
      s!"{n}/{numCalls} calls have a send count min of {mins}\n")
  ++ cs.recvMins.map (fun kv =>
      let mins := kv.1
      let n := kv.2
      s!"{n}/{numCalls} calls have a recv count min of {mins}\n")
  ++ cs.sendNotZeroMins.map (fun kv =>
      let mins := kv.1
      let n := kv.2
      s!"{n}/{numCalls} calls have a send count min of {mins} (excluding zero)\n")
  ++ cs.recvNotZeroMins.map (fun kv =>
      let mins := kv.1
      let n := kv.2
      s!"{n}/{numCalls} calls have a recv count min of {mins} (excluding zero)\n")
  ++ cs.sendMaxs.map (fun kv =>
      let maxs := kv.1
      let n := kv.2
      s!"{n}/{numCalls} calls have a send count max of {maxs}\n")
  ++ cs.recvMaxs.map (fun kv =>
      let maxs := kv.1
      let n := kv.2
      s!"{n}/{numCalls} calls have a recv count max of {maxs}\n")

/-- Embeds `KV` (src/tools/internal/pkg/format/format.go lines 24-27). -/
structure KV where
  key : Int
  val : Int
  deriving DecidableEq, Repr

/-- Embeds the comparison of `KVList.Less` (format.go line 38): value-based
ordering of KV entries. -/
def kvLE (a b : KV) : Prop := a.val ≤ b.val

instance : DecidableRel kvLE := fun a b => inferInstanceAs (Decidable (a.val ≤ b.val))

instance : IsTotal KV kvLE := ⟨fun a b => le_total a.val b.val⟩

instance : IsTrans KV kvLE := ⟨fun _ _ _ hab hbc => le_trans hab hbc⟩

/-- Embeds `ConvertIntMapToOrderedArrayByValue`
(src/tools/internal/pkg/format/format.go lines 47-54): the map entries, in
the iteration order observed, sorted with the value-based `Less`;
`sort.Sort` is modelled by insertion sort, one sort consistent with that
comparator. -/
def ConvertIntMapToOrderedArrayByValue (m : List KV) : List KV :=
  m.insertionSort kvLE

/-- CountStats snapshot holding the send-sparsity histogram
`0 ↦ 1, 5 ↦ 2` in one iteration order. -/
def csOrderA : CountStats :=
  { newCountStats with callSendSparsity := [(0, 1), (5, 2)] }

/-- The same CountStats snapshot with the opposite iteration order of the
send-sparsity histogram. -/
def csOrderB : CountStats :=
  { newCountStats with callSendSparsity := [(5, 2), (0, 1)] }

/-- Per-call record whose only nonzero metrics are SendNotZeroMin = 5 and
RecvNotZeroMin = 7; failing input for the not-zero-min histogram update. -/
def ci0 : CallInfo :=
  ⟨0, 0, 0, 0, 0, 0, 0, 0, 0, 0, 5, 7, 0, 0, [], []⟩

/-! ## Validation path (Go `profiler` package, same embedded file) -/

/-- Decides the content test of `getCountersFromValidationFile` (format.go
line 235): a read line carries data when it is neither empty nor a bare
newline. -/
def nonblankLine (l : String) : Bool :=
  decide (l ≠ "") && decide (l ≠ "\n")

/-- Strips all trailing occurrences of one character, the effect of Go
`strings.TrimRight(s, cutset)` with a single-character cutset. -/
def trimRightChar (s : String) (c : Char) : String :=
  ⟨(s.data.reverse.dropWhile (fun d => d == c)).reverse⟩

/-- Embeds the trailing cleanup of `getCountersFromValidationFile`
(format.go lines 254-257): strip trailing newlines, then trailing
spaces. -/
def trimValidationLine (s : String) : String :=
  trimRightChar (trimRightChar s '\n') ' '

/-- Embeds the read loop of `getCountersFromValidationFile` (format.go lines
227-248) over the lines delivered by the reader, carrying the send/recv
slots, and the final emptiness check and cleanup (lines 250-259). -/
def loadCounters : List String → String → String → Except String (String × String)
  | [], send, recv =>
    if send = "" ∨ recv = "" then
      .error "unable to load send and receive counters"
    else
      .ok (trimValidationLine send, trimValidationLine recv)
  | line :: rest, send, recv =>
    if nonblankLine line then
      if send = "" then loadCounters rest line recv
      else if recv = "" then loadCounters rest send line
      else .error "invalid file format"
    else loadCounters rest send recv

/-- Embeds `getCountersFromValidationFile` (format.go lines 216-260),
abstracting the opened file into its list of reader lines. -/
def getCountersFromValidationFile (lines : List String) : Except String (String × String) :=
  loadCounters lines "" ""

/-- Reference form of the read loop on the pre-filtered content lines; proof
device relating `loadCounters` to the list of non-blank lines. -/
def loadCountersF : List String → String → String → Except String (String × String)
  | [], send, recv =>
    if send = "" ∨ recv = "" then
      .error "unable to load send and receive counters"
    else
      .ok (trimValidationLine send, trimValidationLine recv)
  | line :: rest, send, recv =>
    if send = "" then loadCountersF rest line recv
    else if recv = "" then loadCountersF rest send line
    else .error "invalid file format"

/-- Quote character used by the `%s`-quoting in the mismatch messages of
`Validate`. -/
def sq : String := String.singleton (Char.ofNat 39)

/-- Embeds the send-mismatch error message of `Validate` (format.go line
293). -/
def sendMismatchMsg (base s1 s2 r1 r2 : String) : String :=
  "Send counters do not match with " ++ base ++ ": expected " ++ sq ++ s1 ++ sq ++
    " but got " ++ sq ++ s2 ++ sq ++ "\nReceive counts are: " ++ r1 ++ " vs. " ++ r2

/-- Embeds the receive-mismatch error message of `Validate` (format.go line
297). -/
def recvMismatchMsg (base s1 s2 r1 r2 : String) : String :=
  "Receive counters do not match " ++ base ++ ": expected " ++ sq ++ r1 ++ sq ++
    " but got " ++ sq ++ r2 ++ sq ++ "\nSend counts are: " ++ s1 ++ " vs. " ++ s2

/-- One validation-data file as `Validate` sees it: base filename, the lines
of the file, and the counters-lookup outcome for the rank and call parsed
from the filename. Modelled from the spec: the lookup collaborator
(`datafilereader.FindCallRankCounters`, §4.2 `findRankCallCounters`) is not
under `src/`, so its per-file outcome enters as data. -/
structure ValFile where
  base : String
  lines : List String
  lookup : Except String (String × String)

/-- Embeds one iteration of the `Validate` loop (format.go lines 273-301):
load the two counter lines, look up the reader's counters, compare both
strings, reporting the first mismatch. -/
def validateOne (f : ValFile) : Except String Unit :=
  match getCountersFromValidationFile f.lines with
  | .error e => .error e
  | .ok (s1, r1) =>
    match f.lookup with
    | .error e => .error e
    | .ok (s2, r2) =>
      if s1 ≠ s2 then .error (sendMismatchMsg f.base s1 s2 r1 r2)
      else if r1 ≠ r2 then .error (recvMismatchMsg f.base s1 s2 r1 r2)
      else .ok ()

/-- Embeds `Validate` (format.go lines 262-304) over the scanned
validation-data files: the first failing file aborts the loop with its
error. -/
def Validate : List ValFile → Except String Unit
  | [] => .ok ()
  | f :: rest =>
    match validateOne f with
    | .error e => .error e
    | .ok _ => Validate rest

/-- The needle string occurs contiguously inside the hay string. -/
def strContains (hay needle : String) : Prop :=
  needle.data <:+: hay.data

/-! ## scale package (src/tools/internal/pkg/scale/scale_mapfloat64s.go) -/

/-- Scaling direction constant `DOWN` of the `scale` package (declared in a
file not under `src/`); only its distinctness from `UP` matters. -/
def DOWN : Int := 0

/-- Scaling direction constant `UP` of the `scale` package. -/
def UP : Int := 1

/-- Interface of the `unit` package (`unit.FromString`, `unit.IsValidScale`,
`unit.ToString`), not under `src/` and not described by the spec; the
divergence settled below holds for every behavior of these three
functions, so they enter as a parameter. float64 values are modelled as
rationals. -/
structure UnitModel where
  fromString : String → Int × Int
  isValidScale : Int → Int → Bool
  toString : Int → Int → String

/-- Embeds `mapFloat64sCompute` (scale_mapfloat64s.go lines 49-62): a fresh
map with every value multiplied by 1000 (`DOWN`) or divided by 1000
(`UP`); any other op falls through the switch and returns the fresh empty
map. -/
def mapFloat64sCompute (op : Int) (values : List (Int × ℚ)) : List (Int × ℚ) :=
  if op = DOWN then values.map (fun kv => (kv.1, kv.2 * 1000))
  else if op = UP then values.map (fun kv => (kv.1, kv.2 / 1000))
  else []

/-- Embeds `mapFloat64sScaleDown` (scale_mapfloat64s.go lines 15-30): with an
unrecognized unit (scale -1) or an invalid next scale, type, scale and
values are returned UNCHANGED; otherwise the scale drops by one and the
values are recomputed. -/
def mapFloat64sScaleDown (U : UnitModel) (unitType unitScale : Int)
    (values : List (Int × ℚ)) : Int × Int × List (Int × ℚ) :=
  if unitScale = -1 then (unitType, unitScale, values)
  else if !(U.isValidScale unitType (unitScale - 1)) then (unitType, unitScale, values)
  else (unitType, unitScale - 1, mapFloat64sCompute DOWN values)

/-- Embeds `mapFloat64sScaleUp` (scale_mapfloat64s.go lines 32-47). -/
def mapFloat64sScaleUp (U : UnitModel) (unitType unitScale : Int)
    (values : List (Int × ℚ)) : Int × Int × List (Int × ℚ) :=
  if unitScale = -1 then (unitType, unitScale, values)
  else if !(U.isValidScale unitType (unitScale + 1)) then (unitType, unitScale, values)
  else (unitType, unitScale + 1, mapFloat64sCompute UP values)

/-- Embeds the body of `MapFloat64s` (scale_mapfloat64s.go lines 64-97) as
one step: `some (unitID2, values2)` is the argument pair of the recursive
tail call, `none` means the non-recursive `return unitID, values` is
taken. `sort.Float64s` over the copied values is modelled by insertion
sort; the source indexes the sorted copy at `0` and at
`len(values) - 1`. -/
def mapFloat64sStep (U : UnitModel) (unitID : String) (values : List (Int × ℚ)) :
    Option (String × List (Int × ℚ)) :=
  let sortedValues := (values.map Prod.snd).insertionSort (· ≤ ·)
  if 2 ≤ sortedValues.length ∧ 0 ≤ sortedValues.getD 0 0 ∧
      sortedValues.getD (values.length - 1) 0 ≤ 1 then
    let ts := U.fromString unitID
    let res := mapFloat64sScaleDown U ts.1 ts.2 values
    some (U.toString res.1 res.2.1, res.2.2)
  else if 0 < sortedValues.length ∧ 1000 ≤ sortedValues.getD 0 0 then
    let ts := U.fromString unitID
    let res := mapFloat64sScaleUp U ts.1 ts.2 values
    some (U.toString res.1 res.2.1, res.2.2)
  else none

/-- Runs `MapFloat64s` for at most `fuel` recursive calls: `some` is the
value the Go function returns, `none` means the recursion is still running
after `fuel` unfoldings. -/
def mapFloat64sFuel (U : UnitModel) : Nat → String → List (Int × ℚ) →
    Option (String × List (Int × ℚ))
  | 0, _, _ => none
  | fuel + 1, unitID, values =>
    match mapFloat64sStep U unitID values with
    | none => some (unitID, values)
    | some uv => mapFloat64sFuel U fuel uv.1 uv.2

/-- `MapFloat64s` terminates on the given argument: some finite number of
unfoldings reaches the non-recursive base case. -/
def MapFloat64sTerminatesOn (U : UnitModel) (unitID : String)
    (values : List (Int × ℚ)) : Prop :=
  ∃ fuel r, mapFloat64sFuel U fuel unitID values = some r

/-- Unit model used for the concrete divergence instance: no scale is ever
valid, so rescaling never changes the values. -/
def unitModel0 : UnitModel :=
  ⟨fun _ => (0, 0), fun _ _ => false, fun _ _ => "B"⟩

/-! ## Claim theorems: C5, C6, C9 -/

/-- C5: `compress` on an ascending sequence of distinct non-negative integers
renders runs as `start-end`, isolated ids literally, joined with `", "`.
The spec-modelled codec produces `"1-3, 5, 7-9"` on the spec example, but
the captured `compress_int_array` reads past the end of the array on that
same input (its run-detection loop assigns `array[i+1]` to `array[i]` and
keeps walking while the copied value is nonzero), for every possible
initial content of its uninitialized result string. -/
theorem compress_int_array_eval :
    (∀ rep0 : Option String, compress_int_array rep0 [1, 2, 3, 5, 7, 8, 9] = .oob) ∧
    compress [1, 2, 3, 5, 7, 8, 9] = "1-3, 5, 7-9" := by
  constructor
  · intro rep0
    rfl
  · rfl

/-- C6: round-trip law for the codec. On the ascending input
`[1,2,3,5,7,8,9]` the captured `compress_int_array` never returns the
documented string (it hits an out-of-bounds read instead), so
`decompress (compress x) = x` fails for the captured code; the
spec-modelled codec satisfies the law on that input. -/
theorem codec_roundtrip_eval :
    (∀ rep0 : Option String,
      compress_int_array rep0 [1, 2, 3, 5, 7, 8, 9] ≠ .done (some "1-3, 5, 7-9")) ∧
    decompress (compress [1, 2, 3, 5, 7, 8, 9]) = some [1, 2, 3, 5, 7, 8, 9] := by
  constructor
  · intro rep0 h
    exact nomatch h
  · rfl

/-- C9: under the fixed adjacent-or-overlapping policy, adding the three
points with values 1, 2, 3 in order and finalizing yields exactly one group
with inclusive interval [1,3] and 3 members; finalizing again without
further adds yields the empty list, because finalize resets the state. -/
theorem grouping_finalize_eval :
    (get_groups (add_datapoint (add_datapoint (add_datapoint ⟨[]⟩ 0 1) 1 2) 2 3)).1
      = [⟨1, 3, 3, [0, 1, 2]⟩] ∧
    (get_groups (get_groups (add_datapoint (add_datapoint (add_datapoint ⟨[]⟩ 0 1) 1 2) 2 3)).2).1
      = [] := by
  constructor
  · rfl
  · rfl

/-! ## Helper lemmas for the classifier -/

theorem scanPatterns_none (callNum : Int) (s r : List (Int × Int)) (ps : List CallPattern)
    (h : ∀ p ∈ ps, (compareCallPatterns p.send s && compareCallPatterns p.recv r) = false) :
    scanPatterns callNum s r ps = none := by
  induction ps with
  | nil => rfl
  | cons x rest ih =>
    have hx := h x (by simp)
    have hr := ih (fun p hp => h p (by simp [hp]))
    simp [scanPatterns, hx, hr]

theorem scanPatterns_append (callNum : Int) (s r : List (Int × Int)) (ps l : List CallPattern)
    (h : ∀ p ∈ ps, (compareCallPatterns p.send s && compareCallPatterns p.recv r) = false) :
    scanPatterns callNum s r (ps ++ l) = (scanPatterns callNum s r l).map (ps ++ ·) := by
  induction ps with
  | nil => cases hl : scanPatterns callNum s r l <;> simp [hl]
  | cons x rest ih =>
    have hx := h x (by simp)
    have hr := ih (fun p hp => h p (by simp [hp]))
    cases hl : scanPatterns callNum s r l with
    | none =>
      rw [hl] at hr
      simp only [Option.map_none'] at hr
      simp [scanPatterns, hx, hr]
    | some v =>
      rw [hl] at hr
      simp only [Option.map_some'] at hr
      simp [scanPatterns, hx, hr]

theorem addPattern_allPatterns (gp : GlobalPatterns) (c : Int) (s r : List (Int × Int)) :
    (addPattern gp c s r).allPatterns =
      match scanPatterns c s r gp.allPatterns with
      | some updated => updated
      | none => gp.allPatterns ++ [⟨s, r, 1, [c]⟩] := by
  unfold addPattern
  cases scanPatterns c s r gp.allPatterns <;> rfl

theorem foldl_fanout (s : List (Int × Int)) (idx : Nat) (acc : List Nat) :
    s.foldl (fun a kv => if kv.2 * 100 < kv.1 then a ++ [idx] else a) acc
      = acc ++ List.replicate (s.filter (fun kv => kv.2 * 100 < kv.1)).length idx := by
  induction s generalizing acc with
  | nil => simp
  | cons kv rest ih =>
    by_cases hkv : kv.2 * 100 < kv.1
    · simp [List.foldl_cons, hkv, ih, List.replicate_succ]
    · simp [List.foldl_cons, hkv, ih]

/-! ## Claim theorems: C1, C2 -/

/-- C1 (amended): fan-out marking happens only when a new pattern is created;
the new pattern index is appended to the fan-out list once per pair
`(sendTo, n)` of the send signature with `sendTo > n*100`, so it appears as
many times as there are qualifying pairs; a record that matches an existing
pattern leaves the fan-out list unchanged. -/
theorem addPattern_oneToN_update (gp : GlobalPatterns) (c : Int) (s r : List (Int × Int)) :
    (addPattern gp c s r).oneToN =
      match scanPatterns c s r gp.allPatterns with
      | some _ => gp.oneToN
      | none =>
        gp.oneToN ++
          List.replicate (s.filter (fun kv => kv.2 * 100 < kv.1)).length
            gp.allPatterns.length := by
  unfold addPattern
  cases hscan : scanPatterns c s r gp.allPatterns with
  | some updated => rfl
  | none => simp [foldl_fanout]

/-- C1 (counterexample): a single record whose send signature holds the two
qualifying pairs (101, 1) and (201, 1) creates one pattern that appears
TWICE in the fan-out list, not exactly once. -/
theorem addPattern_fanout_dup :
    ((addPattern ⟨[], []⟩ 0 [(101, 1), (201, 1)] []).oneToN.count 0 = 2) ∧
    ¬ ((addPattern ⟨[], []⟩ 0 [(101, 1), (201, 1)] []).oneToN.count 0 = 1) := by
  constructor
  · decide
  · decide

/-- C2: submitting two records with pairwise-equal signatures to a table in
which no stored pattern matches them yields exactly one new pattern with
count 2 and both call indices in submission order, all prior patterns
unchanged; a third record whose signature matches neither the prior
patterns nor the new one appends a fresh pattern with count 1 and that
single call index at the end of the table. -/
theorem addPattern_dedup
    (gp : GlobalPatterns) (c1 c2 c3 : Int)
    (s r s2 r2 t u : List (Int × Int))
    (h1 : ∀ p ∈ gp.allPatterns,
      (compareCallPatterns p.send s && compareCallPatterns p.recv r) = false)
    (h2 : ∀ p ∈ gp.allPatterns,
      (compareCallPatterns p.send s2 && compareCallPatterns p.recv r2) = false)
    (h3 : ∀ p ∈ gp.allPatterns,
      (compareCallPatterns p.send t && compareCallPatterns p.recv u) = false)
    (hmatch : (compareCallPatterns s s2 && compareCallPatterns r r2) = true)
    (hdiff : (compareCallPatterns s t && compareCallPatterns r u) = false) :
    (addPattern (addPattern gp c1 s r) c2 s2 r2).allPatterns
        = gp.allPatterns ++ [⟨s, r, 2, [c1, c2]⟩] ∧
    (addPattern (addPattern (addPattern gp c1 s r) c2 s2 r2) c3 t u).allPatterns
        = gp.allPatterns ++ [⟨s, r, 2, [c1, c2]⟩, ⟨t, u, 1, [c3]⟩] := by
  have hscan1 : scanPatterns c1 s r gp.allPatterns = none := scanPatterns_none _ _ _ _ h1
  have hg1 : (addPattern gp c1 s r).allPatterns
      = gp.allPatterns ++ [⟨s, r, 1, [c1]⟩] := by
    rw [addPattern_allPatterns, hscan1]
  have hscan2 : scanPatterns c2 s2 r2 (gp.allPatterns ++ [⟨s, r, 1, [c1]⟩])
      = some (gp.allPatterns ++ [⟨s, r, 2, [c1, c2]⟩]) := by
    rw [scanPatterns_append _ _ _ _ _ h2]
    norm_num [scanPatterns, hmatch]
  have hg2 : (addPattern (addPattern gp c1 s r) c2 s2 r2).allPatterns
      = gp.allPatterns ++ [⟨s, r, 2, [c1, c2]⟩] := by
    rw [addPattern_allPatterns, hg1, hscan2]
  refine ⟨hg2, ?_⟩
  have hscan3 : scanPatterns c3 t u (gp.allPatterns ++ [⟨s, r, 2, [c1, c2]⟩]) = none := by
    rw [scanPatterns_append _ _ _ _ _ h3]
    simp [scanPatterns, hdiff]
  rw [addPattern_allPatterns, hg2, hscan3]
  simp

/-- C2 (witness): concrete instantiation of `addPattern_dedup` starting from
the empty table with signatures `([(1,2)], [(3,4)])` twice and then
`([(5,6)], [(3,4)])`. -/
theorem addPattern_dedup_witness :
    (addPattern (addPattern (⟨[], []⟩ : GlobalPatterns) 10 [(1, 2)] [(3, 4)])
        11 [(1, 2)] [(3, 4)]).allPatterns
      = [⟨[(1, 2)], [(3, 4)], 2, [10, 11]⟩] ∧
    (addPattern (addPattern (addPattern (⟨[], []⟩ : GlobalPatterns) 10 [(1, 2)] [(3, 4)])
        11 [(1, 2)] [(3, 4)]) 12 [(5, 6)] [(3, 4)]).allPatterns
      = [⟨[(1, 2)], [(3, 4)], 2, [10, 11]⟩, ⟨[(5, 6)], [(3, 4)], 1, [12]⟩] := by
  have h := addPattern_dedup ⟨[], []⟩ 10 11 12 [(1, 2)] [(3, 4)] [(1, 2)] [(3, 4)]
      [(5, 6)] [(3, 4)] (by simp) (by simp) (by simp) (by decide) (by decide)
  simpa using h

/-! ## Claim theorems: C3, C4 -/

/-- C3 (evaluation at the failing input): accumulating a record whose
SendNotZeroMin is 5 and RecvNotZeroMin is 7 leaves the `sendNotZeroMins`
and `recvNotZeroMins` histograms empty, and instead writes keys 5 and 7
into `sendMins` and `recvMins`: the source tests membership in the
not-zero-min maps but updates the plain min maps. -/
theorem updateCountStats_notZeroMins_eval :
    (updateCountStats newCountStats ci0 0).sendNotZeroMins = [] ∧
    (updateCountStats newCountStats ci0 0).recvNotZeroMins = [] ∧
    lookupKey (updateCountStats newCountStats ci0 0).sendMins 5 = some 1 ∧
    lookupKey (updateCountStats newCountStats ci0 0).recvMins 7 = some 1 := by
  refine ⟨by decide, by decide, by decide, by decide⟩

/-- C4 (counterexample): two CountStats values carrying the same sparsity
histogram (full map equality) in different storage orders make
`writeCountStatsToFile` emit different output, so the emission is neither
in ascending key order nor independent of the internal iteration order. -/
theorem writeCountStats_order_dependent :
    compareCallPatterns csOrderA.callSendSparsity csOrderB.callSendSparsity = true ∧
    writeCountStatsLines 10 200 csOrderA ≠ writeCountStatsLines 10 200 csOrderB := by
  constructor
  · decide
  · decide

/-- C4 (amended): `writeCountStatsToFile` itself enumerates histogram entries
in the map iteration order it is handed; the repository's ordering helper
`ConvertIntMapToOrderedArrayByValue` produces an array sorted by ascending
VALUE (a permutation of the entries), not by key, whatever the iteration
order of the input map. -/
theorem convertIntMapToOrderedArrayByValue_sorted (m : List KV) :
    (ConvertIntMapToOrderedArrayByValue m).Sorted kvLE ∧
    (ConvertIntMapToOrderedArrayByValue m).Perm m :=
  ⟨List.sorted_insertionSort kvLE m, List.perm_insertionSort kvLE m⟩

/-! ## Helper lemmas for the validation path -/

theorem loadCounters_filter (lines : List String) (send recv : String) :
    loadCounters lines send recv = loadCountersF (lines.filter nonblankLine) send recv := by
  induction lines generalizing send recv with
  | nil => rfl
  | cons line rest ih =>
    by_cases hl : nonblankLine line = true
    · simp only [loadCounters, hl, if_true, List.filter_cons_of_pos hl, loadCountersF]
      by_cases hs : send = ""
      · simp [hs, ih]
      · by_cases hr : recv = ""
        · simp [hs, hr, ih]
        · simp [hs, hr]
    · simp only [loadCounters, hl, if_false, List.filter_cons_of_neg (by simpa using hl)]
      exact ih send recv

theorem nonblank_ne_empty {a : String} (h : nonblankLine a = true) : a ≠ "" := by
  simp only [nonblankLine, Bool.and_eq_true, decide_eq_true_eq] at h
  exact h.1

theorem strContains_refl (x : String) : strContains x x :=
  ⟨[], [], by simp⟩

theorem strContains_extendRight (x y n : String) (h : strContains x n) :
    strContains (x ++ y) n := by
  unfold strContains at h ⊢
  rw [String.data_append]
  exact h.trans ⟨[], y.data, by simp⟩

theorem strContains_extendLeft (x y n : String) (h : strContains y n) :
    strContains (x ++ y) n := by
  unfold strContains at h ⊢
  rw [String.data_append]
  exact h.trans ⟨x.data, [], by simp⟩

theorem sendMismatchMsg_contains (base s1 s2 r1 r2 : String) :
    strContains (sendMismatchMsg base s1 s2 r1 r2) s1 ∧
    strContains (sendMismatchMsg base s1 s2 r1 r2) s2 ∧
    strContains (sendMismatchMsg base s1 s2 r1 r2) r1 ∧
    strContains (sendMismatchMsg base s1 s2 r1 r2) r2 ∧
    strContains (sendMismatchMsg base s1 s2 r1 r2) base := by
  unfold sendMismatchMsg
  refine ⟨?_, ?_, ?_, ?_, ?_⟩ <;>
    repeat first
      | exact strContains_extendLeft _ _ _ (strContains_refl _)
      | apply strContains_extendRight

theorem recvMismatchMsg_contains (base s1 s2 r1 r2 : String) :
    strContains (recvMismatchMsg base s1 s2 r1 r2) s1 ∧
    strContains (recvMismatchMsg base s1 s2 r1 r2) s2 ∧
    strContains (recvMismatchMsg base s1 s2 r1 r2) r1 ∧
    strContains (recvMismatchMsg base s1 s2 r1 r2) r2 ∧
    strContains (recvMismatchMsg base s1 s2 r1 r2) base := by
  unfold recvMismatchMsg
  refine ⟨?_, ?_, ?_, ?_, ?_⟩ <;>
    repeat first
      | exact strContains_extendLeft _ _ _ (strContains_refl _)
      | apply strContains_extendRight

/-! ## Claim theorems: C7, C8 -/

/-- C7: `getCountersFromValidationFile` succeeds exactly when the file holds
exactly two non-blank lines, returning them in order with trailing newline
and trailing spaces stripped, and fails with an error both on a third
non-blank line and on fewer than two. -/
theorem getCountersFromValidationFile_spec (lines : List String) :
    (∀ a b, lines.filter nonblankLine = [a, b] →
      getCountersFromValidationFile lines
        = .ok (trimValidationLine a, trimValidationLine b)) ∧
    ((lines.filter nonblankLine).length ≠ 2 →
      ∃ e, getCountersFromValidationFile lines = .error e) := by
  constructor
  · intro a b hab
    have ha : nonblankLine a = true :=
      (List.mem_filter.mp (by rw [hab]; exact List.mem_cons_self a [b])).2
    have hb : nonblankLine b = true :=
      (List.mem_filter.mp (by rw [hab]; simp)).2
    rw [getCountersFromValidationFile, loadCounters_filter, hab]
    simp [loadCountersF, nonblank_ne_empty ha, nonblank_ne_empty hb]
  · intro hlen
    rw [getCountersFromValidationFile, loadCounters_filter]
    rcases hfil : lines.filter nonblankLine with _ | ⟨a, _ | ⟨b, _ | ⟨c, rest⟩⟩⟩
    · exact ⟨"unable to load send and receive counters", by simp [loadCountersF]⟩
    · exact ⟨"unable to load send and receive counters", by simp [loadCountersF]⟩
    · exact absurd (by rw [hfil]; rfl) hlen
    · have ha : nonblankLine a = true :=
        (List.mem_filter.mp (by rw [hfil]; exact List.mem_cons_self a _)).2
      have hb : nonblankLine b = true :=
        (List.mem_filter.mp (by rw [hfil]; simp)).2
      exact ⟨"invalid file format",
        by simp [loadCountersF, nonblank_ne_empty ha, nonblank_ne_empty hb]⟩

/-- C7 (witness): a file with lines `"1 2 \n"`, a blank line and `"3 4\n"`
loads successfully as the pair `("1 2", "3 4")`. -/
theorem getCountersFromValidationFile_witness :
    getCountersFromValidationFile ["1 2 \n", "\n", "3 4\n"] = .ok ("1 2", "3 4") := by
  have h := (getCountersFromValidationFile_spec ["1 2 \n", "\n", "3 4\n"]).1
      "1 2 \n" "3 4\n" (by decide)
  have e1 : trimValidationLine "1 2 \n" = "1 2" := rfl
  have e2 : trimValidationLine "3 4\n" = "3 4" := rfl
  rw [e1, e2] at h
  exact h

/-- C8: when every scanned file's loaded counter strings equal the looked-up
ones, `Validate` returns no error; when the first failing file's send or
receive string differs from the lookup, `Validate` returns an error whose
message contains the expected string, the actual string (in fact all four
counter strings) and the base name of the source file. -/
theorem validate_spec :
    (∀ files : List ValFile,
      (∀ f ∈ files, ∃ s r,
        getCountersFromValidationFile f.lines = .ok (s, r) ∧ f.lookup = .ok (s, r)) →
      Validate files = .ok ()) ∧
    (∀ (pre rest : List ValFile) (f : ValFile) (s1 r1 s2 r2 : String),
      (∀ g ∈ pre, validateOne g = .ok ()) →
      getCountersFromValidationFile f.lines = .ok (s1, r1) →
      f.lookup = .ok (s2, r2) →
      ¬(s1 = s2 ∧ r1 = r2) →
      ∃ msg, Validate (pre ++ f :: rest) = .error msg ∧
        strContains msg s1 ∧ strContains msg s2 ∧
        strContains msg r1 ∧ strContains msg r2 ∧ strContains msg f.base) := by
  constructor
  · intro files hall
    induction files with
    | nil => rfl
    | cons f rest ih =>
      obtain ⟨s, r, hload, hlook⟩ := hall f (by simp)
      have hone : validateOne f = .ok () := by
        simp [validateOne, hload, hlook]
      simp only [Validate, hone]
      exact ih (fun g hg => hall g (by simp [hg]))
  · intro pre rest f s1 r1 s2 r2 hpre hload hlook hne
    induction pre with
    | nil =>
      by_cases hs : s1 = s2
      · have hr : r1 ≠ r2 := fun hr => hne ⟨hs, hr⟩
        refine ⟨recvMismatchMsg f.base s1 s2 r1 r2, ?_, ?_, ?_, ?_, ?_, ?_⟩
        · simp [Validate, validateOne, hload, hlook, hs, hr]
        · exact (recvMismatchMsg_contains f.base s1 s2 r1 r2).1
        · exact (recvMismatchMsg_contains f.base s1 s2 r1 r2).2.1
        · exact (recvMismatchMsg_contains f.base s1 s2 r1 r2).2.2.1
        · exact (recvMismatchMsg_contains f.base s1 s2 r1 r2).2.2.2.1
        · exact (recvMismatchMsg_contains f.base s1 s2 r1 r2).2.2.2.2
      · refine ⟨sendMismatchMsg f.base s1 s2 r1 r2, ?_, ?_, ?_, ?_, ?_, ?_⟩
        · simp [Validate, validateOne, hload, hlook, hs]
        · exact (sendMismatchMsg_contains f.base s1 s2 r1 r2).1
        · exact (sendMismatchMsg_contains f.base s1 s2 r1 r2).2.1
        · exact (sendMismatchMsg_contains f.base s1 s2 r1 r2).2.2.1
        · exact (sendMismatchMsg_contains f.base s1 s2 r1 r2).2.2.2.1
        · exact (sendMismatchMsg_contains f.base s1 s2 r1 r2).2.2.2.2
    | cons g pre2 ih =>
      have hg : validateOne g = .ok () := hpre g (by simp)
      obtain ⟨msg, hmsg, hc⟩ := ih (fun p hp => hpre p (by simp [hp]))
      refine ⟨msg, ?_, hc⟩
      simp only [List.cons_append, Validate, hg]
      exact hmsg

/-- C8 (witness): one matching file validates without error; one file whose
loaded send string `"1 2"` differs from the looked-up `"9 9"` makes
`Validate` fail with a message containing both strings, the receive
strings, and the base filename. -/
theorem validate_spec_witness :
    Validate [⟨"ok.txt", ["1 2\n", "3 4\n"], .ok ("1 2", "3 4")⟩] = .ok () ∧
    ∃ msg,
      Validate [⟨"bad.txt", ["1 2\n", "3 4\n"], .ok ("9 9", "3 4")⟩] = .error msg ∧
      strContains msg "1 2" ∧ strContains msg "9 9" ∧
      strContains msg "3 4" ∧ strContains msg "3 4" ∧ strContains msg "bad.txt" := by
  constructor
  · refine validate_spec.1 _ ?_
    intro f hf
    rw [List.mem_singleton] at hf
    subst hf
    exact ⟨"1 2", "3 4", rfl, rfl⟩
  · exact validate_spec.2 [] [] ⟨"bad.txt", ["1 2\n", "3 4\n"], .ok ("9 9", "3 4")⟩
      "1 2" "3 4" "9 9" "3 4" (by simp) rfl rfl (by decide)

/-! ## Helper lemmas for the scale package -/

theorem allzero_sorted (values : List (Int × ℚ)) (hz : ∀ kv ∈ values, kv.2 = 0) :
    (values.map Prod.snd).insertionSort (fun a b => a ≤ b) = List.replicate values.length 0 := by
  apply List.eq_replicate_iff.mpr
  constructor
  · rw [(List.perm_insertionSort _ _).length_eq, List.length_map]
  · intro b hb
    have hb2 : b ∈ values.map Prod.snd := (List.perm_insertionSort _ _).mem_iff.mp hb
    obtain ⟨kv, hkv, rfl⟩ := List.mem_map.mp hb2
    exact hz kv hkv

theorem getD_replicate_zero (n i : Nat) : (List.replicate n (0 : ℚ)).getD i 0 = 0 := by
  induction n generalizing i with
  | zero => simp
  | succ m ih =>
    cases i with
    | zero => simp [List.replicate_succ]
    | succ j => simp [List.replicate_succ, ih j]

theorem scaleDown_allzero (U : UnitModel) (t s : Int) (values : List (Int × ℚ))
    (hz : ∀ kv ∈ values, kv.2 = 0) :
    (mapFloat64sScaleDown U t s values).2.2.length = values.length ∧
    ∀ kv ∈ (mapFloat64sScaleDown U t s values).2.2, kv.2 = 0 := by
  unfold mapFloat64sScaleDown
  by_cases h1 : s = -1
  · simp only [h1, if_pos rfl]
    exact ⟨rfl, hz⟩
  · by_cases h2 : U.isValidScale t (s - 1)
    · simp only [h1, if_neg h1, h2, Bool.not_true, Bool.false_eq_true, if_false,
        mapFloat64sCompute, if_pos rfl]
      refine ⟨List.length_map _ _, ?_⟩
      intro kv hkv
      obtain ⟨kv0, hkv0, rfl⟩ := List.mem_map.mp hkv
      simp [hz kv0 hkv0]
    · simp only [if_neg h1, Bool.not_eq_true] at *
      simp only [h2, Bool.not_false, if_pos rfl]
      exact ⟨rfl, hz⟩

theorem mapFloat64sStep_allzero (U : UnitModel) (unitID : String)
    (values : List (Int × ℚ)) (hlen : 2 ≤ values.length)
    (hz : ∀ kv ∈ values, kv.2 = 0) :
    ∃ u2 v2, mapFloat64sStep U unitID values = some (u2, v2) ∧
      v2.length = values.length ∧ ∀ kv ∈ v2, kv.2 = 0 := by
  have hsort := allzero_sorted values hz
  simp only [mapFloat64sStep, hsort, List.length_replicate, getD_replicate_zero]
  rw [if_pos ⟨hlen, le_refl 0, by norm_num⟩]
  refine ⟨_, _, rfl, ?_, ?_⟩
  · exact (scaleDown_allzero U _ _ values hz).1
  · exact (scaleDown_allzero U _ _ values hz).2

theorem mapFloat64sFuel_none (U : UnitModel) :
    ∀ (fuel : Nat) (u : String) (values : List (Int × ℚ)),
      2 ≤ values.length → (∀ kv ∈ values, kv.2 = 0) →
      mapFloat64sFuel U fuel u values = none := by
  intro fuel
  induction fuel with
  | zero => intro u values _ _; rfl
  | succ n ih =>
    intro u values hlen hz
    obtain ⟨u2, v2, hstep, hlen2, hz2⟩ := mapFloat64sStep_allzero U u values hlen hz
    simp only [mapFloat64sFuel, hstep]
    exact ih u2 v2 (hlen2 ▸ hlen) hz2

/-! ## Claim theorems: C10 -/

/-- C10 (counterexample): with a concrete unit model and the two-entry
all-zero value map, the `MapFloat64s` recursion never reaches its
non-recursive base case: the scale-down branch re-enters on identical
values forever. -/
theorem mapFloat64s_diverges_concrete :
    ¬ MapFloat64sTerminatesOn unitModel0 "B" [(0, 0), (1, 0)] := by
  rintro ⟨fuel, r, hr⟩
  rw [mapFloat64sFuel_none unitModel0 fuel "B" [(0, 0), (1, 0)] (by decide) (by decide)] at hr
  exact Option.noConfusion hr

/-- C10 (amended): `MapFloat64s` does not terminate on every input: for every
behavior of the unit package, on a value map with at least two entries all
equal to 0 the first scaling condition holds at every call and the values
never change in magnitude, so the recursion never reaches its base case.
It terminates only on inputs whose rescaling chain reaches a state where
neither scaling condition holds. -/
theorem mapFloat64s_diverges_allzero (U : UnitModel) (u : String)
    (values : List (Int × ℚ)) (hlen : 2 ≤ values.length)
    (hz : ∀ kv ∈ values, kv.2 = 0) :
    ¬ MapFloat64sTerminatesOn U u values := by
  rintro ⟨fuel, r, hr⟩
  rw [mapFloat64sFuel_none U fuel u values hlen hz] at hr
  exact Option.noConfusion hr

/-- C10 (witness): the amended divergence theorem applied at a concrete unit
model, unit string and value map. -/
theorem mapFloat64s_diverges_witness :
    ¬ MapFloat64sTerminatesOn unitModel0 "KB" [(7, 0), (9, 0)] :=
  mapFloat64s_diverges_allzero unitModel0 "KB" [(7, 0), (9, 0)] (by decide) (by decide)

end CollectiveProfiler
